import Mathlib

/-!
# Verification of the AI news aggregation digest pipeline

A shallow embedding of the core of the repository (agent pipeline,
score parsing, deduplication, filtering and ranking, rendering,
delivery, feed freshness filtering, article serialization), with
theorems settling the specification claims.

Python floats are modelled as rationals (`Rat`); Python `None` as
`Option`; exceptions as `Except`.  External collaborators (the
rapidfuzz similarity function, the LLM transport, the SMTP transport,
the datetime library) are parameters of the embedding; everything else
is translated from the source.
-/

/-- Python exception classes relevant to `parse_score_response`:
`float()` raises `TypeError` on `None`/list/dict and `ValueError` on a
non-numeric string. -/
inductive PyErr where
  | typeError
  | valueError
deriving DecidableEq

/-- JSON whitespace characters accepted by `json.loads` between tokens. -/
def isJsonWs (c : Char) : Bool :=
  c = ' ' || c = '\t' || c = '\n' || c = '\r'

/-- Python regex `\s` / `str.strip` whitespace class. -/
def isPyWs (c : Char) : Bool :=
  c = ' ' || c = '\t' || c = '\n' || c = '\r' || c = '\x0b' || c = '\x0c'

/-- Skip JSON whitespace. -/
def skipWs : List Char → List Char
  | [] => []
  | c :: rest => if isJsonWs c then skipWs rest else c :: rest

/-- Numeric value of a digit string. -/
def natOfDigits (ds : List Char) : Nat :=
  ds.foldl (fun n c => 10 * n + (c.toNat - 48)) 0

/-- Value of the fractional digit block `ds` read after a decimal point. -/
def fracOfDigits (ds : List Char) : Rat :=
  (natOfDigits ds : Rat) / ((10 : Rat) ^ ds.length)

/-- JSON values, the result type of the model of `json.loads`. -/
inductive JValue where
  | jnull
  | jbool (b : Bool)
  | jnum (q : Rat)
  | jstr (s : String)
  | jarr (xs : List JValue)
  | jobj (kvs : List (String × JValue))

/-- Parse the body of a JSON string (after the opening quote), handling
the common escapes; returns the decoded characters and the remainder
after the closing quote.  Raw control characters are rejected, as in
`json.loads` strict mode. -/
def parseJsonStringAux : List Char → Option (List Char × List Char)
  | [] => none
  | c :: rest =>
    if c = '"' then some ([], rest)
    else if c = '\\' then
      match rest with
      | [] => none
      | e :: rest2 =>
        let ec : Option Char :=
          if e = '"' then some '"'
          else if e = '\\' then some '\\'
          else if e = '/' then some '/'
          else if e = 'n' then some '\n'
          else if e = 't' then some '\t'
          else if e = 'r' then some '\r'
          else if e = 'b' then some '\x08'
          else if e = 'f' then some '\x0c'
          else none
        match ec with
        | none => none
        | some d =>
          match parseJsonStringAux rest2 with
          | some (cs, r) => some (d :: cs, r)
          | none => none
    else if c.toNat < 32 then none
    else
      match parseJsonStringAux rest with
      | some (cs, r) => some (c :: cs, r)
      | none => none

/-- Parse a JSON number (optional minus, integer part, optional
fraction); returns the value and the remainder. -/
def parseJNumChars (cs : List Char) : Option (Rat × List Char) :=
  let p := match cs with
    | '-' :: r => (true, r)
    | _ => (false, cs)
  let neg := p.1
  let cs1 := p.2
  let intDs := cs1.takeWhile Char.isDigit
  let cs2 := cs1.dropWhile Char.isDigit
  if intDs.isEmpty then none
  else
    let ip : Rat := (natOfDigits intDs : Nat)
    match cs2 with
    | '.' :: cs3 =>
      let fds := cs3.takeWhile Char.isDigit
      let cs4 := cs3.dropWhile Char.isDigit
      if fds.isEmpty then none
      else
        let q := ip + fracOfDigits fds
        some ((if neg then -q else q), cs4)
    | _ => some ((if neg then -ip else ip), cs2)

mutual

/-- Fueled recursive-descent parser for a JSON value (model of
`json.loads`). -/
def parseJValue : Nat → List Char → Option (JValue × List Char)
  | 0, _ => none
  | Nat.succ fuel, cs =>
    match skipWs cs with
    | [] => none
    | c :: rest =>
      if c = 'n' then
        match rest with
        | 'u' :: 'l' :: 'l' :: r => some (.jnull, r)
        | _ => none
      else if c = 't' then
        match rest with
        | 'r' :: 'u' :: 'e' :: r => some (.jbool true, r)
        | _ => none
      else if c = 'f' then
        match rest with
        | 'a' :: 'l' :: 's' :: 'e' :: r => some (.jbool false, r)
        | _ => none
      else if c = '"' then
        match parseJsonStringAux rest with
        | some (cs2, r) => some (.jstr (String.mk cs2), r)
        | none => none
      else if c = '-' || c.isDigit then
        match parseJNumChars (c :: rest) with
        | some (q, r) => some (.jnum q, r)
        | none => none
      else if c = '[' then
        match skipWs rest with
        | ']' :: r => some (.jarr [], r)
        | _ => parseJArrElems fuel rest []
      else if c = '\x7b' then
        match skipWs rest with
        | '\x7d' :: r => some (.jobj [], r)
        | _ => parseJObjMembers fuel rest []
      else none

/-- Parse the elements of a JSON array after `[`. -/
def parseJArrElems : Nat → List Char → List JValue → Option (JValue × List Char)
  | 0, _, _ => none
  | Nat.succ fuel, cs, acc =>
    match parseJValue fuel cs with
    | none => none
    | some (v, r) =>
      match skipWs r with
      | ',' :: r2 => parseJArrElems fuel r2 (acc ++ [v])
      | ']' :: r2 => some (.jarr (acc ++ [v]), r2)
      | _ => none

/-- Parse the members of a JSON object after the opening brace. -/
def parseJObjMembers : Nat → List Char → List (String × JValue) →
    Option (JValue × List Char)
  | 0, _, _ => none
  | Nat.succ fuel, cs, acc =>
    match skipWs cs with
    | '"' :: r =>
      match parseJsonStringAux r with
      | none => none
      | some (kcs, r2) =>
        match skipWs r2 with
        | ':' :: r3 =>
          match parseJValue fuel r3 with
          | none => none
          | some (v, r4) =>
            match skipWs r4 with
            | ',' :: r5 => parseJObjMembers fuel r5 (acc ++ [(String.mk kcs, v)])
            | '\x7d' :: r5 => some (.jobj (acc ++ [(String.mk kcs, v)]), r5)
            | _ => none
        | _ => none
    | _ => none

end

/-- Model of `json.loads` on a character list: parse one value and
require that only whitespace remains. -/
def jsonLoads (cs : List Char) : Option JValue :=
  match parseJValue (cs.length + 1) cs with
  | some (v, r) => if (skipWs r).isEmpty then some v else none
  | none => none

deriving instance DecidableEq for Except

/-- Model of Python `min(a, b)`: the second argument is returned only
when it is strictly smaller. -/
def pymin (a b : Rat) : Rat := if b < a then b else a

/-- First brace-delimited substring of the reply: model of
`re.search(r"\x7b[^\x7d]+\x7d", text, re.DOTALL)` in
`parse_score_response`.  At each `\x7b`, the greedy `[^\x7d]+` run must
be nonempty and followed by `\x7d`; otherwise the scan resumes at the
next position. -/
def braceSearch : List Char → Option (List Char)
  | [] => none
  | c :: rest =>
    if c = '\x7b' then
      let body := rest.takeWhile (fun d => d ≠ '\x7d')
      match rest.dropWhile (fun d => d ≠ '\x7d') with
      | '\x7d' :: _ =>
        if body.isEmpty then braceSearch rest
        else some ('\x7b' :: (body ++ ['\x7d']))
      | _ => braceSearch rest
    else braceSearch rest

/-- Last binding of `key` in an object's member list, or `dflt`:
model of Python `dict` construction (later duplicate keys win)
followed by `.get(key, dflt)`. -/
def objGet (kvs : List (String × JValue)) (key : String) (dflt : JValue) : JValue :=
  match kvs.reverse.find? (fun kv => kv.1 == key) with
  | some kv => kv.2
  | none => dflt

/-- Model of Python `float(str)`: strip whitespace, then an optional
sign and digits with an optional fractional part, consuming the whole
string. -/
def pyFloatOfString (s : String) : Option Rat :=
  let cs := (s.toList.dropWhile isPyWs).reverse.dropWhile isPyWs |>.reverse
  let p : Bool × List Char := match cs with
    | '+' :: r => (false, r)
    | '-' :: r => (true, r)
    | _ => (false, cs)
  match parseJNumChars p.2 with
  | some (q, []) => some (if p.1 then -q else q)
  | _ => none

/-- Model of Python `float(x)` on a JSON value: numbers pass through,
booleans coerce to 0/1, numeric strings are parsed (`ValueError`
otherwise), and `None`/lists/objects raise `TypeError`. -/
def pyFloat : JValue → Except PyErr Rat
  | .jnum q => .ok q
  | .jbool b => .ok (if b then 1 else 0)
  | .jstr s =>
    match pyFloatOfString s with
    | some q => .ok q
    | none => .error .valueError
  | .jnull => .error .typeError
  | .jarr _ => .error .typeError
  | .jobj _ => .error .typeError

/-- Model of Python `str(x)` on a JSON value.  Only the string case is
exercised by the pipeline; the renderings of the other cases are
abbreviated. -/
def pyStr : JValue → String
  | .jstr s => s
  | .jnull => "None"
  | .jbool b => if b then "True" else "False"
  | .jnum q => toString q
  | .jarr _ => "[...]"
  | .jobj _ => "\x7b...\x7d"

/-- Case-insensitive literal keyword match at the head of `cs`
(the keyword is given lowercased); returns the remainder. -/
def matchKeyword : List Char → List Char → Option (List Char)
  | [], rest => some rest
  | _ :: _, [] => none
  | k :: ks, c :: rest => if c.toLower = k then matchKeyword ks rest else none

/-- Try the pattern `score[:\s]+(\d+(?:\.\d+)?)` (IGNORECASE) anchored
at the head of `cs`; returns the digit group. -/
def scoreTokenAt (cs : List Char) : Option (List Char) :=
  match matchKeyword ['s', 'c', 'o', 'r', 'e'] cs with
  | none => none
  | some rest =>
    let seps := rest.takeWhile (fun c => c = ':' || isPyWs c)
    let rest2 := rest.dropWhile (fun c => c = ':' || isPyWs c)
    if seps.isEmpty then none
    else
      let ds := rest2.takeWhile Char.isDigit
      let rest3 := rest2.dropWhile Char.isDigit
      if ds.isEmpty then none
      else
        match rest3 with
        | '.' :: r4 =>
          let fs := r4.takeWhile Char.isDigit
          if fs.isEmpty then some ds else some (ds ++ '.' :: fs)
        | _ => some ds

/-- Leftmost match of the score pattern: model of
`re.search(r"score[:\s]+(\d+(?:\.\d+)?)", text, re.I)`. -/
def searchScoreToken : List Char → Option (List Char)
  | [] => none
  | c :: rest =>
    match scoreTokenAt (c :: rest) with
    | some ds => some ds
    | none => searchScoreToken rest

/-- Try the pattern `summary[:\s]+(.+)` (IGNORECASE | DOTALL) anchored
at the head of `cs`; the greedy `.+` captures the rest of the text,
with the separator run giving up its last character when nothing
follows it. -/
def summaryTokenAt (cs : List Char) : Option (List Char) :=
  match matchKeyword ['s', 'u', 'm', 'm', 'a', 'r', 'y'] cs with
  | none => none
  | some rest =>
    let seps := rest.takeWhile (fun c => c = ':' || isPyWs c)
    let rest2 := rest.dropWhile (fun c => c = ':' || isPyWs c)
    if seps.isEmpty then none
    else if rest2.isEmpty then
      match seps.reverse with
      | last :: _ :: _ => some [last]
      | _ => none
    else some rest2

/-- Leftmost match of the summary pattern: model of
`re.search(r"summary[:\s]+(.+)", text, re.I | re.DOTALL)`. -/
def searchSummaryToken : List Char → Option (List Char)
  | [] => none
  | c :: rest =>
    match summaryTokenAt (c :: rest) with
    | some g => some g
    | none => searchSummaryToken rest

/-- Model of Python `str.strip()`. -/
def pyStrip (cs : List Char) : List Char :=
  ((cs.dropWhile isPyWs).reverse.dropWhile isPyWs).reverse

/-- Value of the matched digit group `\d+(\.\d+)?`. -/
def ratOfDigitGroup (ds : List Char) : Rat :=
  let ip := ds.takeWhile Char.isDigit
  match ds.dropWhile Char.isDigit with
  | '.' :: fs => (natOfDigits ip : Rat) + fracOfDigits fs
  | _ => (natOfDigits ip : Rat)

/-- The plain-text fallback step of `parse_score_response` (source
lines 112-119): regex extraction of a score (0.0 when absent) and a
stripped summary ("" when absent), with the score clamped to at most
10.  The enclosing `except Exception` branch of the source is
unreachable (the extracted digit group always converts). -/
def parse_fallback (text : String) : Rat × String :=
  let cs := text.toList
  let score : Rat :=
    match searchScoreToken cs with
    | some ds => ratOfDigitGroup ds
    | none => 0
  let summary : String :=
    match searchSummaryToken cs with
    | some g => String.mk (pyStrip g)
    | none => ""
  (pymin score 10, summary)

/-- Model of `parse_score_response` (ollama_tools.py lines 90-122).
The JSON path finds the first brace-delimited substring, parses it,
coerces the `score` member with `float` and clamps it to at most 10.
A `json.JSONDecodeError` or `ValueError` is caught and control falls
through to the regex fallback, but a `TypeError` raised by `float` is
NOT in the except clause and propagates. -/
def parse_score_response (response_text : String) : Except PyErr (Rat × String) :=
  match braceSearch response_text.toList with
  | some m =>
    match jsonLoads m with
    | none => .ok (parse_fallback response_text)
    | some v =>
      match v with
      | .jobj kvs =>
        match pyFloat (objGet kvs "score" (.jnum 0)) with
        | .ok sc => .ok (pymin sc 10, pyStr (objGet kvs "summary" (.jstr "")))
        | .error .valueError => .ok (parse_fallback response_text)
        | .error .typeError => .error .typeError
      | _ => .ok (parse_fallback response_text)
  | none => .ok (parse_fallback response_text)

/-- Model of `score_and_summarize_article` (ollama_tools.py lines
125-195): the LLM invocation and the parse are wrapped in a broad
`except Exception` returning `(0.0, "")`.  The reply (or the LLM
failure) is the `llmReply` parameter; prompt construction does not
affect the result and is not modelled. -/
def score_and_summarize_article (llmReply : Except PyErr String) : Rat × String :=
  match llmReply with
  | .error _ => (0, "")
  | .ok text =>
    match parse_score_response text with
    | .ok p => p
    | .error _ => (0, "")

/-- An article dictionary as it flows through the agent pipeline
(agent.py): the keys produced by `Article.to_dict` plus the `score`
and `ai_summary` values written by the scoring stage. -/
structure MArticle where
  title : String
  link : String
  summary : String
  source : String
  topic : String
  published : Option String
  score : Rat
  ai_summary : String
deriving DecidableEq

/-- Model of Python `str.lower()` (ASCII case folding), written over
the character list so that it evaluates; extensionally equal to
`String.toLower`. -/
def pyLower (s : String) : String := String.mk (s.toList.map Char.toLower)

/-- Model of Python `str.upper()`, written over the character list. -/
def pyUpper (s : String) : String := String.mk (s.toList.map Char.toUpper)

/-- The processing loop of `dedupe_articles` (agent.py lines 120-143):
`seen` is the list of already-accepted titles; an incoming article is
discarded when some accepted title is fuzzily similar (threshold on a
0-100 scale, case-insensitive), otherwise accepted and its title
recorded.  The rapidfuzz `fuzz.ratio` similarity is the external
parameter `sim`. -/
def dedupeAux (sim : String → String → Rat) (threshold : Rat) :
    List MArticle → List String → List MArticle
  | [], _ => []
  | a :: rest, seen =>
    if seen.any (fun s => decide (threshold ≤ sim (pyLower a.title) (pyLower s))) then
      dedupeAux sim threshold rest seen
    else
      a :: dedupeAux sim threshold rest (seen ++ [a.title])

/-- Model of `dedupe_articles` (agent.py lines 120-143), starting with
no accepted titles. -/
def dedupe_articles (sim : String → String → Rat) (threshold : Rat)
    (articles : List MArticle) : List MArticle :=
  dedupeAux sim threshold articles []

/-- The filter step of `score_node`: keep articles with
`score >= min_score`, preserving order (agent.py lines 187-191). -/
def filterByScore (minScore : Rat) (articles : List MArticle) : List MArticle :=
  articles.filter (fun a => decide (minScore ≤ a.score))

/-- The sort key relation of `score_node`: descending by score
("a sorts no later than b").  Python `list.sort(key=..., reverse=True)`
is a stable sort for this relation. -/
def scoreGE (a b : MArticle) : Prop := b.score ≤ a.score

instance : DecidableRel scoreGE :=
  fun a b => inferInstanceAs (Decidable (b.score ≤ a.score))

instance : IsTotal MArticle scoreGE :=
  ⟨fun a b => le_total b.score a.score⟩

instance : IsTrans MArticle scoreGE :=
  ⟨fun _ _ _ hab hbc => le_trans hbc hab⟩

/-- The ranking step of `score_node`:
`scored.sort(key=..., reverse=True)` — a stable descending sort by
score (agent.py line 193).  A stable sorted permutation is unique, so
any stable sorting algorithm is an extensionally faithful model of
Python's. -/
def rankArticles (articles : List MArticle) : List MArticle :=
  articles.insertionSort scoreGE

/-- Filter-and-rank as performed by `score_node`: threshold filter
followed by the stable descending sort. -/
def filter_and_rank (minScore : Rat) (articles : List MArticle) : List MArticle :=
  rankArticles (filterByScore minScore articles)

/-- Append an article under its topic key, preserving first-seen topic
order: model of insertion into the `by_topic` dict of `format_node`
(Python dicts preserve insertion order). -/
def groupInsert (key : String) (a : MArticle) :
    List (String × List MArticle) → List (String × List MArticle)
  | [] => [(key, [a])]
  | (k, xs) :: rest =>
    if k = key then (k, xs ++ [a]) :: rest
    else (k, xs) :: groupInsert key a rest

/-- The topic grouping of `format_node` (agent.py lines 221-227); the
topic key is uppercased. -/
def groupByTopic (articles : List MArticle) : List (String × List MArticle) :=
  articles.foldl (fun acc a => groupInsert (pyUpper a.topic) a acc) []

/-- Model of the Python format `f"{score:.1f}"` on a rational score:
one digit after the decimal point, rounding half up.  Written with
integer arithmetic on the numerator and denominator. -/
def formatScore (q : Rat) : String :=
  let scaled : Int := Int.fdiv (20 * q.num + (q.den : Int)) (2 * (q.den : Int))
  let sign := if scaled < 0 then "-" else ""
  let m : Nat := scaled.natAbs
  sign ++ toString (m / 10) ++ "." ++ toString (m % 10)

/-- The summary line of an article in the digest:
`article.get("ai_summary") or article.get("summary", "")[:200]` —
the generated summary if non-empty, else the first 200 characters of
the raw summary. -/
def articleSummaryText (a : MArticle) : String :=
  if a.ai_summary = "" then String.mk (a.summary.toList.take 200) else a.ai_summary

/-- The three markdown parts emitted per article by `format_node`
(agent.py lines 243-245). -/
def articleLines (a : MArticle) : List String :=
  ["### [" ++ a.title ++ "](" ++ a.link ++ ")",
   "*" ++ a.source ++ "* | Score: " ++ formatScore a.score ++ "\n",
   articleSummaryText a ++ "\n"]

/-- The markdown parts of one topic section (header plus articles). -/
def topicSection (kv : String × List MArticle) : List String :=
  ("\n## " ++ kv.1 ++ "\n") :: (kv.2.map articleLines).flatten

/-- The markdown document built by `format_node` for a non-empty
article list: header part, then topic sections, joined with newlines
(agent.py lines 229-247). -/
def renderMarkdown (today : String) (articles : List MArticle) : String :=
  String.intercalate "\n"
    (("# Daily News Digest\n*" ++ today ++ "*\n") ::
      ((groupByTopic articles).map topicSection).flatten)

/-- The fixed markdown emitted when no articles survived
(agent.py line 215). -/
def emptyDigestMarkdown : String :=
  "# Daily News Digest\n\nNo relevant articles found today."

/-- The fixed HTML emitted when no articles survived (agent.py line
218); built independently of the markdown form. -/
def emptyDigestHtml : String :=
  "<h1>Daily News Digest</h1><p>No relevant articles found.</p>"

/-- Per-line substitution `^# (.+)$` → `<h1>\1</h1>` of
`_markdown_to_html` (the `.+` group must be non-empty and cannot cross
a newline, so with `re.M` the substitution is per line). -/
def subH1 (line : String) : String :=
  match line.toList with
  | '#' :: ' ' :: rest =>
    if rest.isEmpty then line else "<h1>" ++ String.mk rest ++ "</h1>"
  | _ => line

/-- Per-line substitution `^## (.+)$` → `<h2>\1</h2>`. -/
def subH2 (line : String) : String :=
  match line.toList with
  | '#' :: '#' :: ' ' :: rest =>
    if rest.isEmpty then line else "<h2>" ++ String.mk rest ++ "</h2>"
  | _ => line

/-- Leftmost split of `cs` at the first occurrence of the two-character
delimiter `d1 d2`, requiring a non-empty, newline-free part before it
(the lazy group `(.+?)` of the source patterns). -/
def findClose2 (d1 d2 : Char) : List Char → Option (List Char × List Char)
  | [] => none
  | c :: rest =>
    if c = '\n' then none
    else
      match rest with
      | r1 :: r2 :: after2 =>
        if r1 = d1 ∧ r2 = d2 then some ([c], after2)
        else
          match findClose2 d1 d2 rest with
          | some (gap, after) => some (c :: gap, after)
          | none => none
      | _ => none

/-- Leftmost split of `cs` at the first occurrence of the single
closing character `d`, requiring a non-empty, newline-free part
before it. -/
def findClose1 (d : Char) : List Char → Option (List Char × List Char)
  | [] => none
  | c :: rest =>
    if c = '\n' then none
    else
      match rest with
      | r1 :: after1 =>
        if r1 = d then some ([c], after1)
        else
          match findClose1 d rest with
          | some (gap, after) => some (c :: gap, after)
          | none => none
      | _ => none

/-- Per-line substitution `^### \[(.+?)\]\((.+?)\)$` →
`<h3><a href='\2'>\1</a></h3>`: the lazy title group stops at the
first `](`, and the anchored lazy link group extends to the final
character, which must be `)`. -/
def subH3 (line : String) : String :=
  match line.toList with
  | '#' :: '#' :: '#' :: ' ' :: '[' :: rest =>
    (match findClose2 ']' '(' rest with
     | some (t, rest2) =>
       (match rest2.reverse with
        | ')' :: revl =>
          let l := revl.reverse
          if l.isEmpty then line
          else
            "<h3><a href=\x27" ++ String.mk l ++ "\x27>" ++ String.mk t ++
              "</a></h3>"
        | _ => line)
     | none => line)
  | _ => line

/-- Apply a per-line substitution across the whole text (model of a
`re.sub` with `^...$` anchors and the `re.M` flag). -/
def mapLines (f : String → String) (s : String) : String :=
  String.intercalate "\n" ((s.splitOn "\n").map f)

/-- Global substitution `\*\*(.+?)\*\*` → `<strong>\1</strong>`,
scanning left to right over non-overlapping matches. -/
def subStrongAux : Nat → List Char → List Char
  | 0, cs => cs
  | _ + 1, [] => []
  | fuel + 1, '*' :: '*' :: rest =>
    (match findClose2 '*' '*' rest with
     | some (gap, after) =>
       ("<strong>".toList ++ gap ++ "</strong>".toList) ++ subStrongAux fuel after
     | none => '*' :: subStrongAux fuel ('*' :: rest))
  | fuel + 1, c :: rest => c :: subStrongAux fuel rest

/-- Global substitution `\*(.+?)\*` → `<em>\1</em>`. -/
def subEmAux : Nat → List Char → List Char
  | 0, cs => cs
  | _ + 1, [] => []
  | fuel + 1, '*' :: rest =>
    (match findClose1 '*' rest with
     | some (gap, after) =>
       ("<em>".toList ++ gap ++ "</em>".toList) ++ subEmAux fuel after
     | none => '*' :: subEmAux fuel rest)
  | fuel + 1, c :: rest => c :: subEmAux fuel rest

/-- Global substitution `\[(.+?)\]\((.+?)\)` → `<a href='\2'>\1</a>`. -/
def subLinksAux : Nat → List Char → List Char
  | 0, cs => cs
  | _ + 1, [] => []
  | fuel + 1, '[' :: rest =>
    (match findClose2 ']' '(' rest with
     | some (t, rest2) =>
       (match findClose1 ')' rest2 with
        | some (l, after) =>
          ("<a href=\x27".toList ++ l ++ "\x27>".toList ++ t ++ "</a>".toList) ++
            subLinksAux fuel after
        | none => '[' :: subLinksAux fuel rest)
     | none => '[' :: subLinksAux fuel rest)
  | fuel + 1, c :: rest => c :: subLinksAux fuel rest

/-- Global substitution `\n\n+` → `</p><p>`. -/
def subParagraphsAux : Nat → List Char → List Char
  | 0, cs => cs
  | _ + 1, [] => []
  | fuel + 1, '\n' :: '\n' :: rest =>
    "</p><p>".toList ++ subParagraphsAux fuel (rest.dropWhile (fun c => c = '\n'))
  | fuel + 1, c :: rest => c :: subParagraphsAux fuel rest

/-- The strong-emphasis pass over a string. -/
def subStrong (s : String) : String :=
  String.mk (subStrongAux (s.toList.length + 1) s.toList)

/-- The emphasis pass over a string. -/
def subEm (s : String) : String :=
  String.mk (subEmAux (s.toList.length + 1) s.toList)

/-- The link pass over a string. -/
def subLinks (s : String) : String :=
  String.mk (subLinksAux (s.toList.length + 1) s.toList)

/-- The paragraph-break pass over a string. -/
def subParagraphs (s : String) : String :=
  String.mk (subParagraphsAux (s.toList.length + 1) s.toList)

/-- The fixed document head of the HTML wrapper of
`_markdown_to_html` (agent.py lines 276-285). -/
def htmlDocHead : String :=
  "<!DOCTYPE html>\n<html>\n<head><meta charset=\"utf-8\">\n<style>\nbody \x7b font-family: -apple-system, BlinkMacSystemFont, \x27Segoe UI\x27, Roboto, sans-serif; max-width: 800px; margin: 0 auto; padding: 20px; line-height: 1.6; \x7d\nh1 \x7b color: #333; \x7d h2 \x7b color: #555; border-bottom: 1px solid #ddd; \x7d h3 \x7b margin-bottom: 5px; \x7d\na \x7b color: #0066cc; \x7d em \x7b color: #666; \x7d\n</style>\n</head>\n<body><p>"

/-- The fixed document tail of the HTML wrapper. -/
def htmlDocTail : String := "</p></body>\n</html>"

/-- Model of `_markdown_to_html` (agent.py lines 255-286): the header,
emphasis, link and paragraph substitutions in source order, wrapped in
the fixed document shell. -/
def markdown_to_html (markdown : String) : String :=
  let h := markdown
  let h := mapLines subH1 h
  let h := mapLines subH2 h
  let h := mapLines subH3 h
  let h := subStrong h
  let h := subEm h
  let h := subLinks h
  let h := subParagraphs h
  htmlDocHead ++ h ++ htmlDocTail

/-- The `stats` dictionary accumulated through the pipeline; absent
keys are `none`. -/
structure Stats where
  fetched : Option Nat
  after_dedupe : Option Nat
  passed_filter : Option Nat
  email_sent : Option Bool
deriving DecidableEq

/-- The `DigestState` TypedDict threaded through the LangGraph
pipeline (agent.py lines 30-40).  Each node returns a partial update
that LangGraph merges into the state; the embedding applies each
node's update directly. -/
structure DigestState where
  raw_articles : List MArticle
  scored_articles : List MArticle
  digest_markdown : String
  digest_html : String
  min_score : Rat
  max_articles : Option Nat
  dry_run : Bool
  error : Option String
  stats : Stats
deriving DecidableEq

/-- The `if max_articles:` truncation of `score_node` (agent.py lines
157-158); Python truthiness makes both `None` and `0` skip the
truncation. -/
def truncateArticles (max_articles : Option Nat) (articles : List MArticle) :
    List MArticle :=
  match max_articles with
  | some m => if m = 0 then articles else articles.take m
  | none => articles

/-- Model of `score_node` (agent.py lines 146-204): dedupe, truncate,
check the Ollama backend (a `ConnectionError` is caught and stored as
the run error), score each article through the LLM, filter by
`min_score`, sort descending, and merge the update.  `sim` is the
rapidfuzz similarity, `ollama` the backend-availability check result,
`llm` the per-article reply of the model (keyed by title, content and
source). -/
def score_node (sim : String → String → Rat) (ollama : Except String Unit)
    (llm : String → String → String → Except PyErr String)
    (s : DigestState) : DigestState :=
  let articles := dedupe_articles sim 85 s.raw_articles
  let articles := truncateArticles s.max_articles articles
  match ollama with
  | .error msg => { s with error := some msg }
  | .ok _ =>
    let scoredAll := articles.map (fun a =>
      let r := score_and_summarize_article (llm a.title a.summary a.source)
      { a with score := r.1, ai_summary := r.2 })
    let scored := filter_and_rank s.min_score scoredAll
    { s with
        scored_articles := scored,
        stats := { s.stats with
                     after_dedupe := some articles.length,
                     passed_filter := some scored.length } }

/-- Model of `format_node` (agent.py lines 207-252): with no scored
articles the two fixed "no articles" documents are emitted; otherwise
the markdown is built from the ranked list and the date
(`datetime.now().strftime(...)`, passed here as `today`) and the HTML
is derived from it by `_markdown_to_html`. -/
def format_node (today : String) (s : DigestState) : DigestState :=
  if s.scored_articles.isEmpty then
    { s with digest_markdown := emptyDigestMarkdown,
             digest_html := emptyDigestHtml }
  else
    let md := renderMarkdown today s.scored_articles
    { s with digest_markdown := md, digest_html := markdown_to_html md }

/-- The email configuration read from the environment by
`get_email_config` (sender.py lines 25-31); unset variables are
`none`. -/
structure EmailConfig where
  recipient : Option String
  gmail_user : Option String
  gmail_password : Option String
deriving DecidableEq

/-- Python truthiness of one credential: present and non-empty. -/
def credPresent : Option String → Bool
  | some s => decide (s ≠ "")
  | none => false

/-- Model of `validate_config` (sender.py lines 34-44): false when any
of recipient, user or password is missing or empty. -/
def validate_config (c : EmailConfig) : Bool :=
  credPresent c.recipient && credPresent c.gmail_user && credPresent c.gmail_password

/-- Model of `send_gmail` (sender.py lines 47-105): configuration is
validated, then the SMTP transport (external parameter) is attempted,
with any transport exception caught and reported as `false`. -/
def send_gmail (transport : String → String → String → Except String Unit)
    (c : EmailConfig) (toAddr subject html_body : String) : Bool :=
  if validate_config c = false then false
  else
    match transport toAddr subject html_body with
    | .ok _ => true
    | .error _ => false

/-- Model of `send_digest` (sender.py lines 108-130): validates the
configuration, builds the dated subject, and delegates to
`send_gmail`. -/
def send_digest (transport : String → String → String → Except String Unit)
    (c : EmailConfig) (today html_body : String) : Bool :=
  if validate_config c = false then false
  else
    send_gmail transport c (c.recipient.getD "")
      ("Daily News Digest - " ++ today) html_body

/-- Model of `send_node` (agent.py lines 289-308): in dry-run mode the
stats record `email_sent=False` without touching the transport;
otherwise `send_digest` runs (it is total — every transport failure is
caught inside `send_gmail` — so the `except` branches of `send_node`
are unreachable) and its outcome is recorded. -/
def send_node (transport : String → String → String → Except String Unit)
    (c : EmailConfig) (today : String) (s : DigestState) : DigestState :=
  if s.dry_run then
    { s with stats := { s.stats with email_sent := some false } }
  else
    let success := send_digest transport c today s.digest_html
    { s with stats := { s.stats with email_sent := some success } }

/-- Model of `fetch_node` (agent.py lines 103-117): the MCP fetch
result (external parameter) either fills `raw_articles` and the
`fetched` stat, or a caught exception is stored as the run error. -/
def fetch_node (fetchRes : Except String (List MArticle)) (s : DigestState) :
    DigestState :=
  match fetchRes with
  | .ok arts =>
    { s with raw_articles := arts,
             stats := { s.stats with fetched := some arts.length } }
  | .error e => { s with error := some ("Fetch failed: " ++ e) }

/-- Model of `run_pipeline` combined with `build_graph` (agent.py
lines 311-368): the fetch result is merged first and an error there
returns early; otherwise the compiled graph runs `score_node`,
`format_node` and `send_node` unconditionally in sequence (the graph
has only the static edges score → format → send). -/
def run_pipeline (sim : String → String → Rat) (ollama : Except String Unit)
    (llm : String → String → String → Except PyErr String)
    (transport : String → String → String → Except String Unit)
    (c : EmailConfig) (today : String)
    (fetchRes : Except String (List MArticle)) (s_init : DigestState) :
    DigestState :=
  let s1 := fetch_node fetchRes s_init
  if s1.error.isSome then s1
  else send_node transport c today (format_node today (score_node sim ollama llm s1))

/-- A feedparser entry as consumed by the RSS servers: the two
timestamp attributes carry the already-converted UTC time in seconds
when present and convertible (the `datetime(*struct[:6])` conversion
and its caught failures are folded into the `Option`), plus the text
attributes read with `.get`. -/
structure FeedEntry where
  published_parsed : Option Int
  updated_parsed : Option Int
  title : Option String
  link : Option String
  summary : Option String
  description : Option String
deriving DecidableEq

/-- Model of `parse_published_date` (mcp_rss_server.py lines 47-61 and
aggregator.py lines 81-108): prefer `published_parsed`, fall back to
`updated_parsed`, else no timestamp. -/
def parse_published_date (e : FeedEntry) : Option Int :=
  match e.published_parsed with
  | some t => some t
  | none => e.updated_parsed

/-- Model of `is_fresh` (mcp_rss_server.py lines 64-69).  In the
source the reference instant is `datetime.now(timezone.utc)` evaluated
inside the function, i.e. at each call; it is therefore an explicit
argument here.  Unknown dates are always fresh. -/
def is_fresh (now : Int) (published : Option Int) (hours : Int) : Bool :=
  match published with
  | none => true
  | some t => decide (now - hours * 3600 ≤ t)

/-- Model of `is_within_freshness_window` (aggregator.py lines
111-130), identical in behaviour to `is_fresh`. -/
def is_within_freshness_window (now : Int) (published : Option Int)
    (freshness_hours : Int) : Bool :=
  match published with
  | none => true
  | some t => decide (now - freshness_hours * 3600 ≤ t)

/-- An article as built by the fetchers (`models.Article` with only
the fetch-time fields set). -/
structure FetchedArticle where
  title : String
  link : String
  summary : String
  source : String
  topic : String
  published : Option Int
deriving DecidableEq

/-- The article constructed from one feed entry
(mcp_rss_server.py lines 96-103). -/
def mkArticleOfEntry (topic source : String) (e : FeedEntry) : FetchedArticle :=
  { title := e.title.getD "No title",
    link := e.link.getD "",
    summary := e.summary.getD (e.description.getD ""),
    source := source,
    topic := topic,
    published := parse_published_date e }

/-- The entry loop of `fetch_single_feed` (mcp_rss_server.py lines
90-104).  `clock k` is the value of `datetime.now(timezone.utc)` at
the k-th freshness test of the run — one call per processed entry. -/
def processEntries (clock : Nat → Int) (hours : Int) (topic source : String) :
    Nat → List FeedEntry → List FetchedArticle
  | _, [] => []
  | k, e :: rest =>
    if is_fresh (clock k) (parse_published_date e) hours then
      mkArticleOfEntry topic source e :: processEntries clock hours topic source (k + 1) rest
    else
      processEntries clock hours topic source (k + 1) rest

/-- Model of `fetch_single_feed` (mcp_rss_server.py lines 72-111):
process up to `max_articles` entries, testing each against the clock
at its own processing step. -/
def fetch_single_feed (clock : Nat → Int) (topic source : String)
    (max_articles : Nat) (freshness_hours : Int) (entries : List FeedEntry) :
    List FetchedArticle :=
  processEntries clock freshness_hours topic source 0 (entries.take max_articles)

/-- `models.Article` (models.py lines 10-25), parametrized by the type
`DT` of timezone-aware datetimes (the datetime library is an external
collaborator; its `isoformat`/`fromisoformat` pair enters through the
serialization functions below). -/
structure PyArticle (DT : Type) where
  title : String
  link : String
  summary : String
  source : String
  topic : String
  published : Option DT
  score : Rat
  ai_summary : String

/-- The dictionary produced by `Article.to_dict`: the `published`
field is serialized to a string (or `None`). -/
structure ArticleDict where
  title : String
  link : String
  summary : String
  source : String
  topic : String
  published : Option String
  score : Rat
  ai_summary : String

/-- Model of `Article.to_dict` (models.py lines 27-38);
`isofmt` models `datetime.isoformat`. -/
def PyArticle.to_dict {DT : Type} (isofmt : DT → String) (a : PyArticle DT) :
    ArticleDict :=
  { title := a.title, link := a.link, summary := a.summary,
    source := a.source, topic := a.topic,
    published := a.published.map isofmt,
    score := a.score, ai_summary := a.ai_summary }

/-- Model of `Article.from_dict` (models.py lines 40-59): a falsy
(`None` or empty) `published` value is skipped, and a parse failure of
`fromisoformat` (modelled by `fromiso` returning `none`) is caught and
leaves `published = None`. -/
def PyArticle.from_dict {DT : Type} (fromiso : String → Option DT)
    (d : ArticleDict) : PyArticle DT :=
  { title := d.title, link := d.link, summary := d.summary,
    source := d.source, topic := d.topic,
    published :=
      match d.published with
      | none => none
      | some str => if str = "" then none else fromiso str,
    score := d.score, ai_summary := d.ai_summary }

/-- Helper: Python `min(a, 10)` never exceeds 10. -/
theorem pymin_le_right (a b : Rat) : pymin a b ≤ b := by
  unfold pymin
  split
  · exact le_refl b
  · exact le_of_not_lt (by assumption)

/-- C10: converting an Article to a dictionary and back restores every
field, whenever the datetime serialization pair round-trips
(`fromisoformat (isoformat d) = d`, and `isoformat` never yields the
empty string) — the documented contract of the external datetime
library for aware or naive datetimes.  A `published` of `None`
round-trips unconditionally. -/
theorem article_to_dict_from_dict_roundtrip {DT : Type}
    (isofmt : DT → String) (fromiso : String → Option DT)
    (hround : ∀ d, fromiso (isofmt d) = some d)
    (hne : ∀ d, isofmt d ≠ "")
    (a : PyArticle DT) :
    PyArticle.from_dict fromiso (PyArticle.to_dict isofmt a) = a := by
  cases a with
  | mk title link summary source topic published score ai_summary =>
    cases published with
    | none => simp [PyArticle.to_dict, PyArticle.from_dict]
    | some d => simp [PyArticle.to_dict, PyArticle.from_dict, hround d, hne d]

/-- Witness for C10 at a concrete serialization pair and article. -/
theorem article_to_dict_from_dict_roundtrip_witness :
    PyArticle.from_dict (fun s => if s = "2024-01-01T00:00:00+00:00" then some () else none)
      (PyArticle.to_dict (fun _ : Unit => "2024-01-01T00:00:00+00:00")
        ⟨"t", "l", "s", "src", "ai", some (), 7, "a"⟩) =
      (⟨"t", "l", "s", "src", "ai", some (), 7, "a"⟩ : PyArticle Unit) :=
  article_to_dict_from_dict_roundtrip _ _
    (fun d => by cases d; simp)
    (fun d => by simp)
    _

/-- C3 (failing input): on the reply `{"score": null, "summary": "x"}`
the JSON step succeeds, but `float(None)` raises `TypeError`, which the
`except (json.JSONDecodeError, ValueError)` clause does not catch, so
`parse_score_response` raises instead of returning `(0.0, "")`. -/
theorem parse_score_response_raises_on_null_score :
    parse_score_response "\x7b\"score\": null, \"summary\": \"x\"\x7d" =
      .error .typeError := by decide

/-- C9: in dry-run (preview) mode `send_node` records
`email_sent = False` and its result does not depend on the transport
(no delivery is attempted); and with any credential absent,
`send_digest` returns `false` (it is a total function — no exception)
and a non-dry run records `email_sent = False` without touching the
run error. -/
theorem send_preview_and_missing_credentials
    (t t2 : String → String → String → Except String Unit)
    (c : EmailConfig) (today : String) (s : DigestState) :
    (s.dry_run = true →
      (send_node t c today s).stats.email_sent = some false ∧
      send_node t c today s = send_node t2 c today s) ∧
    ((c.recipient = none ∨ c.gmail_user = none ∨ c.gmail_password = none) →
      (∀ html, send_digest t c today html = false) ∧
      (s.dry_run = false →
        (send_node t c today s).stats.email_sent = some false ∧
        (send_node t c today s).error = s.error)) := by
  constructor
  · intro h
    constructor
    · simp [send_node, h]
    · simp [send_node, h]
  · intro h
    have hv : validate_config c = false := by
      rcases h with h | h | h <;> simp [validate_config, credPresent, h]
    refine ⟨fun html => by simp [send_digest, hv], fun hd => ?_⟩
    constructor
    · simp [send_node, hd, send_digest, hv]
    · simp [send_node, hd]

/-- Witness for C9: a dry run with full credentials, and a live run
with the recipient unset. -/
theorem send_preview_and_missing_credentials_witness :
    (send_node (fun _ _ _ => Except.ok ()) ⟨some "r", some "u", some "p"⟩ "D"
        ⟨[], [], "", "", 6, none, true, none, ⟨none, none, none, none⟩⟩).stats.email_sent =
      some false ∧
    send_digest (fun _ _ _ => Except.ok ()) ⟨none, some "u", some "p"⟩ "D" "<p>x</p>" =
      false :=
  ⟨((send_preview_and_missing_credentials (fun _ _ _ => Except.ok ())
      (fun _ _ _ => Except.ok ()) ⟨some "r", some "u", some "p"⟩ "D"
      ⟨[], [], "", "", 6, none, true, none, ⟨none, none, none, none⟩⟩).1 rfl).1,
   (((send_preview_and_missing_credentials (fun _ _ _ => Except.ok ())
      (fun _ _ _ => Except.ok ()) ⟨none, some "u", some "p"⟩ "D"
      ⟨[], [], "", "", 6, none, true, none, ⟨none, none, none, none⟩⟩).2
      (Or.inl rfl)).1 "<p>x</p>")⟩

/-- C6: in the fetch loop, an entry with no parseable timestamp is
always turned into an article, and an entry whose timestamp is older
than `now − freshness_hours·3600` (with `now` the clock value at that
entry's freshness test) is skipped.  The statement covers every
processed entry, as the head of its suffix at step `k`. -/
theorem freshness_window_spec (clock : Nat → Int) (hours : Int)
    (topic source : String) (k : Nat) (e : FeedEntry) (rest : List FeedEntry) :
    (parse_published_date e = none →
      processEntries clock hours topic source k (e :: rest) =
        mkArticleOfEntry topic source e ::
          processEntries clock hours topic source (k + 1) rest) ∧
    (∀ t : Int, parse_published_date e = some t →
      t < clock k - hours * 3600 →
      processEntries clock hours topic source k (e :: rest) =
        processEntries clock hours topic source (k + 1) rest) := by
  constructor
  · intro h
    simp [processEntries, is_fresh, h]
  · intro t h hlt
    have hn : ¬ (clock k - hours * 3600 ≤ t) := not_le.mpr hlt
    simp [processEntries, is_fresh, h, hn]

/-- A dateless entry used by the freshness witnesses. -/
def wEntryNoDate : FeedEntry := ⟨none, none, some "t1", some "l1", some "s1", none⟩

/-- A stale entry (published far before the cutoff) used by the
freshness witnesses. -/
def wEntryOld : FeedEntry := ⟨some (-90000), none, some "t2", some "l2", some "s2", none⟩

/-- Witness for C6: with the clock at 0 and a 24h window, the dateless
entry is kept and the stale entry is dropped. -/
theorem freshness_window_spec_witness :
    processEntries (fun _ => 0) 24 "ai" "src" 0 [wEntryNoDate] =
      [mkArticleOfEntry "ai" "src" wEntryNoDate] ∧
    processEntries (fun _ => 0) 24 "ai" "src" 0 [wEntryOld] = [] := by
  constructor
  · have h := (freshness_window_spec (fun _ => 0) 24 "ai" "src" 0 wEntryNoDate []).1
      (by decide)
    simpa [processEntries] using h
  · have h := (freshness_window_spec (fun _ => 0) 24 "ai" "src" 0 wEntryOld []).2
      (-90000) (by decide) (by decide)
    simpa [processEntries] using h

/-- The advancing clock of the C7 counterexample: the run's first
freshness test happens at time 100, the second at time 200. -/
def c7clock : Nat → Int := fun k => if k = 0 then 100 else 200

/-- The entry of the C7 counterexample, published at time 150. -/
def c7entry : FeedEntry := ⟨some 150, none, some "t", some "l", some "s", none⟩

/-- C7 (counterexample): `is_fresh` evaluates `datetime.now` inside
each call, i.e. once per article, not once per run.  With a window of
0 hours and the clock advancing from 100 to 200 during the run, two
entries with the identical timestamp 150 are treated differently —
the first is kept (cutoff 100) and the second dropped (cutoff 200) —
so the articles of one run are not all tested against the same cutoff
instant. -/
theorem per_article_now_counterexample :
    fetch_single_feed c7clock "ai" "src" 10 0 [c7entry, c7entry] =
      [mkArticleOfEntry "ai" "src" c7entry] := by decide

/-- C7 (amended): `now` is re-evaluated inside every freshness test,
so each article is tested against the cutoff at its own processing
instant; only when the clock does not advance during the run
(`clock k = n` throughout) is every article tested against the single
cutoff `n − freshness_hours·3600`, and then the loop is exactly a
filter of the entries. -/
theorem per_article_now_amended (clock : Nat → Int) (n : Int)
    (hconst : ∀ k, clock k = n) (hours : Int) (topic source : String)
    (k : Nat) (entries : List FeedEntry) :
    processEntries clock hours topic source k entries =
      (entries.filter (fun e => is_fresh n (parse_published_date e) hours)).map
        (mkArticleOfEntry topic source) := by
  induction entries generalizing k with
  | nil => simp [processEntries]
  | cons e rest ih =>
    cases hf : is_fresh n (parse_published_date e) hours with
    | true => simp [processEntries, hconst k, hf, List.filter_cons, ih (k + 1)]
    | false => simp [processEntries, hconst k, hf, List.filter_cons, ih (k + 1)]

/-- Witness for C7's amended claim at a constant clock. -/
theorem per_article_now_amended_witness :
    processEntries (fun _ => 0) 24 "ai" "src" 0 [wEntryNoDate, wEntryOld] =
      [mkArticleOfEntry "ai" "src" wEntryNoDate] := by
  have h := per_article_now_amended (fun _ => 0) 0 (fun _ => rfl) 24 "ai" "src" 0
    [wEntryNoDate, wEntryOld]
  simpa using h

/-- C2 (counterexample): the JSON path of `parse_score_response` only
clamps from above (`min(score, 10)`); a reply whose JSON `score` is
negative is returned unchanged, so the parsed score can be negative. -/
theorem parse_score_negative_counterexample :
    parse_score_response "\x7b\"score\": -5, \"summary\": \"ok\"\x7d" =
      .ok (-5, "ok") ∧ (-5 : Rat) < 0 := by decide

/-- C2 (amended): whenever `parse_score_response` returns normally the
score is at most 10, and when neither the JSON step nor the regex
fallback extracts anything the result is exactly `(0.0, "")`; but
there is no lower clamp (see the counterexample), so the score is not
always non-negative. -/
theorem parse_score_clamp (text : String) (r : Rat × String) :
    (parse_score_response text = .ok r → r.1 ≤ 10) ∧
    (braceSearch text.toList = none → searchScoreToken text.toList = none →
      searchSummaryToken text.toList = none →
      parse_score_response text = .ok (0, "")) := by
  constructor
  · intro h
    have hfb : ∀ s : String, (parse_fallback s).1 ≤ 10 := by
      intro s
      unfold parse_fallback
      exact pymin_le_right _ _
    unfold parse_score_response at h
    split at h
    · split at h
      · injection h with h2
        subst h2
        exact hfb text
      · split at h
        · split at h
          · injection h with h2
            subst h2
            exact pymin_le_right _ _
          · injection h with h2
            subst h2
            exact hfb text
          · cases h
        · injection h with h2
          subst h2
          exact hfb text
    · injection h with h2
      subst h2
      exact hfb text
  · intro h1 h2 h3
    have h0 : pymin 0 10 = (0 : Rat) := by decide
    simp only [String.toList] at h1 h2 h3
    simp [parse_score_response, String.toList, h1, parse_fallback, h2, h3, h0]

/-- Witness for C2's amended claim: a fallback reply clamps to 10, and
pure gibberish yields exactly `(0.0, "")`. -/
theorem parse_score_clamp_witness :
    ((10 : Rat), "fine").1 ≤ 10 ∧
    parse_score_response "no json here at all" = .ok (0, "") :=
  ⟨(parse_score_clamp "Score: 99 and summary: fine" (10, "fine")).1 (by decide),
   (parse_score_clamp "no json here at all" (0, "")).2 (by decide) (by decide)
     (by decide)⟩

/-- A pipeline state with the given scored articles, used by the
rendering counterexample. -/
def c8state (arts : List MArticle) : DigestState :=
  ⟨[], arts, "", "", 6, none, true, none, ⟨none, none, none, none⟩⟩

/-- The scored article of the rendering counterexample. -/
def c8article : MArticle :=
  ⟨"Title", "http://x", "Raw summary", "CNN", "ai", none, 7, "AI summary"⟩

/-- C8 (counterexample): rendering is not a function of the ranked
list alone — the markdown embeds `datetime.now()` formatted as the
current date, so two renderings of the same list on different dates
differ byte-wise; and on the empty list the HTML is built
independently of the markdown (the fixed `<h1>…` string, not
`_markdown_to_html` of the markdown — the markdown says "found today",
the HTML only "found."), so the HTML form is not obtained from the
markdown form. -/
theorem render_not_deterministic_counterexample :
    format_node "Monday, January 01, 2024" (c8state [c8article]) ≠
      format_node "Tuesday, January 02, 2024" (c8state [c8article]) ∧
    (format_node "Monday, January 01, 2024" (c8state [])).digest_html ≠
      markdown_to_html
        (format_node "Monday, January 01, 2024" (c8state [])).digest_markdown := by
  constructor
  · decide
  · decide

/-- C8 (amended): rendering is deterministic as a function of the
ranked list AND the render date: with the date fixed, the markdown and
HTML are fixed functions of the scored list; for a non-empty list the
HTML is exactly `_markdown_to_html` of the markdown, while for the
empty list both forms are fixed constants (the HTML one not derived
from the markdown one). -/
theorem render_deterministic_given_date (today : String) (s : DigestState) :
    (s.scored_articles = [] →
      (format_node today s).digest_markdown = emptyDigestMarkdown ∧
      (format_node today s).digest_html = emptyDigestHtml) ∧
    (s.scored_articles ≠ [] →
      (format_node today s).digest_markdown = renderMarkdown today s.scored_articles ∧
      (format_node today s).digest_html =
        markdown_to_html (renderMarkdown today s.scored_articles)) := by
  constructor
  · intro h
    constructor <;> simp [format_node, h]
  · intro h
    have hne : s.scored_articles.isEmpty = false := by
      cases hl : s.scored_articles with
      | nil => exact absurd hl h
      | cons x xs => simp
    constructor <;> simp [format_node, hne]

/-- Witness for C8's amended claim at an empty and a one-article
list. -/
theorem render_deterministic_given_date_witness :
    (format_node "D" (c8state [])).digest_markdown = emptyDigestMarkdown ∧
    (format_node "D" (c8state [c8article])).digest_html =
      markdown_to_html (renderMarkdown "D" [c8article]) :=
  ⟨((render_deterministic_given_date "D" (c8state [])).1 rfl).1,
   ((render_deterministic_given_date "D" (c8state [c8article])).2 (by decide)).2⟩

/-- The initial state of the C1 counterexample: a live (non-dry-run)
run before scoring. -/
def c1s0 : DigestState := ⟨[], [], "", "", 6, none, false, none, ⟨none, none, none, none⟩⟩

/-- The connectivity error raised by `check_ollama_available` when the
backend is unreachable. -/
def c1err : String := "Cannot connect to Ollama. Is it running? Start with: ollama serve"

/-- The state after the scoring stage fails its backend precondition
check. -/
def c1s1 : DigestState :=
  score_node (fun _ _ => 0) (.error c1err) (fun _ _ _ => .ok "x") c1s0

/-- A fully configured email account for the C1 counterexample. -/
def c1cfg : EmailConfig := ⟨some "r@example.com", some "u", some "p"⟩

/-- C1 (counterexample): the graph edges are unconditional and neither
`format_node` nor `send_node` checks the error marker.  After the
scoring stage sets the error, the rendering stage still performs its
primary work (it overwrites the digest — the state is not propagated
unchanged), and the delivery stage still attempts to send: its result
depends on the transport outcome. -/
theorem error_passthrough_counterexample :
    c1s1.error = some c1err ∧
    (format_node "D" c1s1).digest_markdown ≠ c1s1.digest_markdown ∧
    send_node (fun _ _ _ => .ok ()) c1cfg "D" (format_node "D" c1s1) ≠
      send_node (fun _ _ _ => .error "auth") c1cfg "D" (format_node "D" c1s1) := by
  refine ⟨by decide, by decide, by decide⟩

/-- C1 (amended): only the fetch stage's error short-circuits the run
(`run_pipeline` returns before invoking the graph); an error set by
the scoring stage does not turn the later stages into pass-throughs:
`format_node` still builds the digest of the (then empty) scored list,
and `send_node` on a live run still records the transport's outcome. -/
theorem error_passthrough_amended (sim : String → String → Rat)
    (ollama : Except String Unit)
    (llm : String → String → String → Except PyErr String)
    (t : String → String → String → Except String Unit)
    (c : EmailConfig) (today : String)
    (fetchRes : Except String (List MArticle)) (s0 s : DigestState) (e : String) :
    (∀ msg, fetchRes = .error msg →
      run_pipeline sim ollama llm t c today fetchRes s0 = fetch_node fetchRes s0) ∧
    (s.error = some e →
      (format_node today s).digest_markdown =
        (if s.scored_articles.isEmpty then emptyDigestMarkdown
         else renderMarkdown today s.scored_articles)) ∧
    (s.error = some e → s.dry_run = false →
      (send_node t c today s).stats.email_sent =
        some (send_digest t c today s.digest_html)) := by
  refine ⟨?_, ?_, ?_⟩
  · intro msg h
    subst h
    simp [run_pipeline, fetch_node]
  · intro _
    cases hb : s.scored_articles.isEmpty <;> simp [format_node, hb]
  · intro _ hd
    simp [send_node, hd]

/-- Witness for C1's amended claim: a failed fetch short-circuits, and
on `c1s1` (scoring error set) the later stages still do their work. -/
theorem error_passthrough_amended_witness :
    run_pipeline (fun _ _ => 0) (.ok ()) (fun _ _ _ => .ok "x")
        (fun _ _ _ => .ok ()) c1cfg "D" (.error "boom") c1s0 =
      fetch_node (.error "boom") c1s0 ∧
    (format_node "D" c1s1).digest_markdown =
      (if c1s1.scored_articles.isEmpty then emptyDigestMarkdown
       else renderMarkdown "D" c1s1.scored_articles) ∧
    (send_node (fun _ _ _ => .ok ()) c1cfg "D" c1s1).stats.email_sent =
      some (send_digest (fun _ _ _ => .ok ()) c1cfg "D" c1s1.digest_html) :=
  ⟨(error_passthrough_amended (fun _ _ => 0) (.ok ()) (fun _ _ _ => .ok "x")
      (fun _ _ _ => .ok ()) c1cfg "D" (.error "boom") c1s0 c1s1 c1err).1 "boom" rfl,
   (error_passthrough_amended (fun _ _ => 0) (.ok ()) (fun _ _ _ => .ok "x")
      (fun _ _ _ => .ok ()) c1cfg "D" (.error "boom") c1s0 c1s1 c1err).2.1 (by decide),
   (error_passthrough_amended (fun _ _ => 0) (.ok ()) (fun _ _ _ => .ok "x")
      (fun _ _ _ => .ok ()) c1cfg "D" (.error "boom") c1s0 c1s1 c1err).2.2 (by decide)
     (by decide)⟩

/-- C4: the filter-and-rank step of `score_node` outputs exactly the
articles with `score ≥ θ` (a permutation of the order-preserving
filter), every output article meets the threshold, the output is
sorted descending by score, and the sort is stable: for each score
value, the output's articles with that score are exactly the filtered
input's articles with that score, in input order. -/
theorem filter_and_rank_spec (θ : Rat) (l : List MArticle) :
    (filter_and_rank θ l).Perm (filterByScore θ l) ∧
    (∀ a ∈ filter_and_rank θ l, θ ≤ a.score) ∧
    (filter_and_rank θ l).Sorted scoreGE ∧
    (∀ sc : Rat,
      (filter_and_rank θ l).filter (fun a => decide (a.score = sc)) =
        (filterByScore θ l).filter (fun a => decide (a.score = sc))) := by
  have hperm : (filter_and_rank θ l).Perm (filterByScore θ l) :=
    List.perm_insertionSort _ _
  refine ⟨hperm, ?_, ?_, ?_⟩
  · intro a ha
    have hmem : a ∈ List.filter (fun a => decide (θ ≤ a.score)) l :=
      hperm.mem_iff.mp ha
    exact of_decide_eq_true (List.mem_filter.mp hmem).2
  · exact List.sorted_insertionSort scoreGE (filterByScore θ l)
  · intro sc
    have hsub : List.Sublist
        (List.filter (fun a => decide (a.score = sc)) (filterByScore θ l))
        (filterByScore θ l) := List.filter_sublist _
    have hpair : (List.filter (fun a => decide (a.score = sc))
        (filterByScore θ l)).Pairwise scoreGE := by
      apply List.pairwise_of_forall_mem_list
      intro a ha b hb
      have ha2 : a.score = sc := of_decide_eq_true (List.mem_filter.mp ha).2
      have hb2 : b.score = sc := of_decide_eq_true (List.mem_filter.mp hb).2
      show b.score ≤ a.score
      rw [ha2, hb2]
    have h1 : List.Sublist
        (List.filter (fun a => decide (a.score = sc)) (filterByScore θ l))
        (filter_and_rank θ l) := List.sublist_insertionSort hpair hsub
    have h2 : List.filter (fun a => decide (a.score = sc))
        (List.filter (fun a => decide (a.score = sc)) (filterByScore θ l)) =
        List.filter (fun a => decide (a.score = sc)) (filterByScore θ l) :=
      List.filter_eq_self.mpr (fun a ha => (List.mem_filter.mp ha).2)
    have h3 : List.Sublist
        (List.filter (fun a => decide (a.score = sc)) (filterByScore θ l))
        (List.filter (fun a => decide (a.score = sc)) (filter_and_rank θ l)) := by
      have h := h1.filter (fun a => decide (a.score = sc))
      rwa [h2] at h
    have h4 : (List.filter (fun a => decide (a.score = sc))
        (filter_and_rank θ l)).length =
        (List.filter (fun a => decide (a.score = sc)) (filterByScore θ l)).length :=
      (hperm.filter _).length_eq
    exact (h3.eq_of_length h4.symm).symm

/-- The scenario-D articles used by the C4 witness. -/
def c4articles : List MArticle :=
  [⟨"a", "", "", "", "", none, 9, ""⟩, ⟨"b", "", "", "", "", none, 4, ""⟩,
   ⟨"c", "", "", "", "", none, 7, ""⟩]

/-- Witness for C4 on scenario D (θ = 6, scores [9, 4, 7]). -/
theorem filter_and_rank_spec_witness :
    (6 : Rat) ≤ (⟨"a", "", "", "", "", none, 9, ""⟩ : MArticle).score ∧
    (filter_and_rank 6 c4articles).filter (fun a => decide (a.score = 9)) =
      (filterByScore 6 c4articles).filter (fun a => decide (a.score = 9)) :=
  ⟨(filter_and_rank_spec 6 c4articles).2.1 ⟨"a", "", "", "", "", none, 9, ""⟩
     (by decide),
   (filter_and_rank_spec 6 c4articles).2.2.2 9⟩

/-- Helper: the dedupe loop returns a subsequence of its input for any
accepted-title accumulator. -/
theorem dedupeAux_sublist (sim : String → String → Rat) (θ : Rat) :
    ∀ (l : List MArticle) (seen : List String),
      List.Sublist (dedupeAux sim θ l seen) l := by
  intro l
  induction l with
  | nil => intro seen; simp [dedupeAux]
  | cons a rest ih =>
    intro seen
    unfold dedupeAux
    split
    · exact (ih seen).cons a
    · exact (ih (seen ++ [a.title])).cons₂ a

/-- Helper: processing a concatenation first processes the prefix and
then the suffix, with the accumulator extended by the titles accepted
from the prefix. -/
theorem dedupeAux_append (sim : String → String → Rat) (θ : Rat) :
    ∀ (pre rest : List MArticle) (seen : List String),
      dedupeAux sim θ (pre ++ rest) seen =
        dedupeAux sim θ pre seen ++
          dedupeAux sim θ rest
            (seen ++ (dedupeAux sim θ pre seen).map (fun a => a.title)) := by
  intro pre
  induction pre with
  | nil => intro rest seen; simp [dedupeAux]
  | cons p ps ih =>
    intro rest seen
    simp only [List.cons_append]
    by_cases hc :
        (seen.any fun s => decide (θ ≤ sim (pyLower p.title) (pyLower s))) = true
    · simp only [dedupeAux, hc, if_true]
      exact ih rest seen
    · simp only [dedupeAux, hc, if_false, Bool.false_eq_true]
      rw [ih rest (seen ++ [p.title])]
      simp [List.append_assoc]

/-- Helper: one unfolding step of the dedupe loop on a cons. -/
theorem dedupeAux_cons_eq (sim : String → String → Rat) (θ : Rat)
    (a : MArticle) (post : List MArticle) (seen : List String) :
    dedupeAux sim θ (a :: post) seen =
      if (seen.any fun s => decide (θ ≤ sim (pyLower a.title) (pyLower s))) = true
      then dedupeAux sim θ post seen
      else a :: dedupeAux sim θ post (seen ++ [a.title]) := rfl

/-- C5: characterization of `dedupe_articles` at an arbitrary position
(the input split as `pre ++ a :: post`).  The output is a subsequence
of the input; the articles accepted while scanning `pre` are exactly
`dedupe_articles sim θ pre` (acceptance does not depend on what
follows); and `a` is dropped if and only if some earlier ACCEPTED
article's lowercased title is similar to `a`'s at or above the
threshold — in which case the earlier article (already in the output
prefix) is the one that survives; otherwise `a` is accepted.  The two
cases are exhaustive, giving the drop-iff-earlier-similar
characterization. -/
theorem dedupe_articles_spec (sim : String → String → Rat) (θ : Rat)
    (pre post : List MArticle) (a : MArticle) :
    List.Sublist (dedupe_articles sim θ (pre ++ a :: post)) (pre ++ a :: post) ∧
    ((∃ b ∈ dedupe_articles sim θ pre, θ ≤ sim (pyLower a.title) (pyLower b.title)) →
      dedupe_articles sim θ (pre ++ a :: post) =
        dedupe_articles sim θ pre ++
          dedupeAux sim θ post
            ((dedupe_articles sim θ pre).map (fun b => b.title))) ∧
    ((∀ b ∈ dedupe_articles sim θ pre, sim (pyLower a.title) (pyLower b.title) < θ) →
      dedupe_articles sim θ (pre ++ a :: post) =
        dedupe_articles sim θ pre ++
          a :: dedupeAux sim θ post
            ((dedupe_articles sim θ pre).map (fun b => b.title) ++ [a.title])) := by
  refine ⟨dedupeAux_sublist sim θ _ [], ?_, ?_⟩
  · intro h
    unfold dedupe_articles at h ⊢
    have hc : (((dedupeAux sim θ pre []).map (fun b => b.title)).any
        fun s => decide (θ ≤ sim (pyLower a.title) (pyLower s))) = true := by
      rw [List.any_eq_true]
      obtain ⟨b, hb, hble⟩ := h
      exact ⟨b.title, List.mem_map_of_mem _ hb, decide_eq_true hble⟩
    rw [dedupeAux_append sim θ pre (a :: post) []]
    simp only [List.nil_append]
    rw [dedupeAux_cons_eq, if_pos hc]
  · intro h
    unfold dedupe_articles at h ⊢
    have hc : (((dedupeAux sim θ pre []).map (fun b => b.title)).any
        fun s => decide (θ ≤ sim (pyLower a.title) (pyLower s))) = false := by
      rw [List.any_eq_false]
      intro snm hs
      obtain ⟨b, hb, rfl⟩ := List.mem_map.mp hs
      simp only [decide_eq_true_eq]
      exact not_le.mpr (h b hb)
    rw [dedupeAux_append sim θ pre (a :: post) []]
    simp only [List.nil_append]
    rw [dedupeAux_cons_eq, if_neg (by simp [hc])]

/-- A concrete similarity for the dedupe witness: 100 for equal
(lowercased) strings, 0 otherwise. -/
def c5sim : String → String → Rat := fun s t => if s = t then 100 else 0

/-- First witness article. -/
def c5a1 : MArticle := ⟨"Fed Raises Rates", "l1", "", "", "econ", none, 0, ""⟩

/-- A near-duplicate of the first article (same title up to case). -/
def c5a2 : MArticle := ⟨"Fed raises rates", "l2", "", "", "econ", none, 0, ""⟩

/-- An unrelated article. -/
def c5b : MArticle := ⟨"Other news", "l3", "", "", "econ", none, 0, ""⟩

/-- Witness for C5: the near-duplicate later article is dropped in
favour of the earlier one, while a dissimilar article is accepted. -/
theorem dedupe_articles_spec_witness :
    dedupe_articles c5sim 85 [c5a1, c5a2] =
      dedupe_articles c5sim 85 [c5a1] ++
        dedupeAux c5sim 85 []
          ((dedupe_articles c5sim 85 [c5a1]).map (fun b => b.title)) ∧
    dedupe_articles c5sim 85 [c5a1, c5b] =
      dedupe_articles c5sim 85 [c5a1] ++
        c5b :: dedupeAux c5sim 85 []
          ((dedupe_articles c5sim 85 [c5a1]).map (fun b => b.title) ++ [c5b.title]) :=
  ⟨(dedupe_articles_spec c5sim 85 [c5a1] [] c5a2).2.1 (by decide),
   (dedupe_articles_spec c5sim 85 [c5a1] [] c5b).2.2 (by decide)⟩
